import Mathlib

/-!
Verification of the polyrhythm simulation engine (`src/main.rs`).

Embedding conventions:

* SFML `Time` values are stored as signed microsecond counts; every time in the
  program is non-negative and monotonically produced, so times are embedded as
  `ℕ` microseconds.  `Time::as_milliseconds` is integer division by `1000`;
  `Time::as_seconds` divides the microsecond count by `10^6`.
* `f32` arithmetic is embedded as exact rational arithmetic.  Each `f32`
  literal of the source is replaced by the exact rational value of the `f32`
  nearest to it: `std::f32::consts::PI` is `13176795 / 2^22`, the strike
  window bound `0.005` is `10737418 / 2^31`, and the fade clamp floor
  `0.196_078_43` is `13158601 / 2^26`.  All other literals of the source
  (`500.0`, `255.0`, `900.0`, `2.0`, `50.0`, …) are exactly representable.
* Rust's saturating float-to-`u8` cast (`as u8`) truncates toward zero and
  clamps into `[0, 255]`.
* Rust's `%` on floats is `x - y * trunc (x / y)`; every occurrence in the
  source has a non-negative dividend and positive divisor, where truncation
  agrees with `Int.floor`.
* The SFML audio voices are external resources: the per-frame query
  `players[idx].status() != SoundStatus::PLAYING` is modelled by a per-tick
  oracle `playing : Fin ARC_COUNT → Bool` handed to the tick function (each
  voice is queried at most once per tick, so a per-tick oracle is exact).
* Drawing calls (`window.draw`) have no effect on engine state and are
  dropped; the outline colour stored in each `CircleShape` is grayscale, so a
  single channel value `outline : ℕ` represents `Color::rgb(v, v, v)`.
-/

/-- `ARC_COUNT` from the source. -/
def ARC_COUNT : ℕ := 21

/-- Exact value of the `f32` constant `std::f32::consts::PI` (`0x40490FDB`),
namely `13176795 * 2^-22`. -/
def pi32 : ℚ := 13176795 / 4194304

/-- Exact value of the `f32` literal `0.005` used as the strike-window bound,
namely `10737418 * 2^-31`. -/
def strikeEps : ℚ := 10737418 / 2147483648

/-- Exact value of the `f32` literal `0.196_078_43` (the fade clamp floor,
approximately `50/255`), namely `13158601 * 2^-26`. -/
def floorFrac : ℚ := 13158601 / 67108864

/-- Rust `f32::clamp(self, lo, hi)` for `lo ≤ hi`: if below `lo` take `lo`,
if above `hi` take `hi`, otherwise keep the value. -/
def clampQ (x lo hi : ℚ) : ℚ := max lo (min x hi)

/-- Rust saturating cast `as u8` applied to a (non-NaN) float value:
truncate toward zero and clamp into `[0, 255]`.  All values cast in the
source are products of non-negative factors, where truncation toward zero is
`Int.floor`, and `Int.toNat` realises the lower saturation bound. -/
def asU8 (x : ℚ) : ℕ := (min 255 ⌊x⌋).toNat

/-- Rust `%` on floats, for a non-negative dividend and positive divisor:
`x - y * trunc (x / y) = x - y * ⌊x / y⌋`. -/
def rmod (x y : ℚ) : ℚ := x - y * ⌊x / y⌋

/-- The state of one `Arc` (`struct Arc` of the source).  The `arc_shape`
field only carries the grayscale outline colour channel `outline`; radius and
the other shape attributes are fixed at construction. -/
structure ArcState where
  glow_start_time : Option ℕ
  outline : ℕ
  elapsed_time : ℕ
deriving DecidableEq

/-- The glow/fade brightness computation of `Arc::draw`, as a function of
`time_since_glow_start` in microseconds.  Mirrors the source: take whole
milliseconds, compare against `GLOW_DURATION as i32 = 500`; in the fade-out
branch compute `1 - clamp((ms - 500)/500, 0.196…, 1)`, scale by `255`, cast
to `u8` and clamp into `[50, 255]`; in the fade-in branch compute
`clamp(ms/500, 0.196…, 1)`, scale by `255` and cast to `u8`. -/
def brightnessUs (dus : ℕ) : ℕ :=
  if 500 < dus / 1000 then
    min 255 (max 50 (asU8 (255 * (1 - clampQ ((((dus / 1000 : ℕ) : ℚ) - 500) / 500) floorFrac 1))))
  else
    asU8 (255 * clampQ (((dus / 1000 : ℕ) : ℚ) / 500) floorFrac 1)

/-- `Arc::draw`: advance the arc's own clock by `dt` and, when a glow pulse
has been started, recompute the outline brightness from the time since the
pulse started. -/
def arcDraw (a : ArcState) (dt : ℕ) : ArcState :=
  let el := a.elapsed_time + dt
  match a.glow_start_time with
  | some g =>
      { glow_start_time := some g, outline := brightnessUs (el - g), elapsed_time := el }
  | none => { a with elapsed_time := el }

/-- `Arc::glow_start`: unconditionally record the arc-local clock as the new
pulse start. -/
def glow_start (a : ArcState) : ArcState :=
  { a with glow_start_time := some a.elapsed_time }

/-- Repeated `Arc::draw` calls with the given list of frame deltas. -/
def arcRun (a : ArcState) (dts : List ℕ) : ArcState := dts.foldl arcDraw a

/-- `Time::as_seconds` of a microsecond count. -/
def asSeconds (us : ℕ) : ℚ := (us : ℚ) / 1000000

/-- Angular speed of arc `i`: `(ONE_LOOP * (50 - i) as f32) / TIME_SECS` with
`ONE_LOOP = 2.0 * PI` and `TIME_SECS = 900.0`.  The subtraction `50 - i` is
on unsigned integers, exact for every index `i < ARC_COUNT`. -/
def speed (i : ℕ) : ℚ := 2 * pi32 * ((50 - i : ℕ) : ℚ) / 900

/-- The raw (unreflected) phase of arc `i` at engine-elapsed time `eus`
microseconds: `distance = PI + speed * elapsed_time.as_seconds()`. -/
def distance (i : ℕ) (eus : ℕ) : ℚ := pi32 + speed i * asSeconds eus

/-- `mod_distance = distance % (2.0 * PI)`. -/
def modDistance (i : ℕ) (eus : ℕ) : ℚ := rmod (distance i eus) (2 * pi32)

/-- `adjusted_distance`: the triangular reflection of the folded phase; the
ball of arc `i` sits at angle `ballAngle i eus` on its arc, and its drawn
position is `(ARC_CENTER.0 + radius i * cos θ, ARC_CENTER.1 + radius i * sin θ)`
for `θ = ballAngle i eus`, where the radius of arc `i` is fixed. -/
def ballAngle (i : ℕ) (eus : ℕ) : ℚ :=
  if pi32 ≤ modDistance i eus then modDistance i eus else 2 * pi32 - modDistance i eus

/-- Radius of arc `i`: `50.0 + (WIDTH/2) / (ARC_COUNT + 3) * i = 50 + 25 i`
(both occurrences of the formula in the source agree); exact in `f32`. -/
def radius (i : ℕ) : ℚ := 50 + (1200 / 2) / ((ARC_COUNT : ℚ) + 3) * i

/-- The strike test `(0.0..0.005).contains(&(distance % PI))` of the source:
the raw unreflected phase taken modulo `PI` lies in the half-open window
`[0, 0.005)`. -/
def strikeB (i : ℕ) (eus : ℕ) : Bool :=
  decide ((0 : ℚ) ≤ rmod (distance i eus) pi32) && decide (rmod (distance i eus) pi32 < strikeEps)

/-- The body of the strike-consumption loop of `Polyrhythm::draw` for one arc:
if the arc's collision flag is set, restart its glow pulse and, when its audio
voice is idle, count the collision (and command the voice to play — an
external effect with no engine state).  Returns the updated arc together with
the updated collision counter; the flag itself is cleared by the caller. -/
def strikeStep (playing : Bool) (c : Bool) (a : ArcState) (n : ℕ) : ArcState × ℕ :=
  if c then (glow_start a, if playing then n else n + 1) else (a, n)

/-- The engine state (`struct Polyrhythm`): per-arc states, collision flags,
the shared simulation clock (microseconds) and the collision counter.  The
`rect` and `circle` shapes are pure drawing resources with no evolving
state and are omitted. -/
structure PolyState where
  arcs : Fin ARC_COUNT → ArcState
  collision : Fin ARC_COUNT → Bool
  elapsed_time : ℕ
  num_collisions : ℕ

/-- `Polyrhythm::new()`: clock at `Time::milliseconds(100)`, no collisions,
all flags down, every arc with its own clock at zero, no glow started, and
the initial outline colour `Color::rgb(50, 50, 50)`. -/
def initState : PolyState where
  arcs := fun _ => { glow_start_time := none, outline := 50, elapsed_time := 0 }
  collision := fun _ => false
  elapsed_time := 100000
  num_collisions := 0

/-- One frame of `Polyrhythm::draw(dt)`.  First the clock advances; then the
consumption loop handles each raised flag (glow restart, debounced audio and
counter) and lowers it, and each arc is drawn; finally the detection loop
recomputes every flag from the freshly advanced clock.  Consumption lowers
every flag before detection runs, so the outgoing flag of arc `i` is exactly
the strike test at the new clock value.  The counter is threaded through the
consumption loop in index order and each iteration adds `0` or `1`
independently of the running value, so the final counter is the initial one
plus the sum of the per-arc increments. -/
def tick (s : PolyState) (playing : Fin ARC_COUNT → Bool) (dt : ℕ) : PolyState where
  arcs := fun i => arcDraw (strikeStep (playing i) (s.collision i) (s.arcs i) 0).1 dt
  collision := fun i => strikeB i.val (s.elapsed_time + dt)
  elapsed_time := s.elapsed_time + dt
  num_collisions :=
    s.num_collisions + Finset.univ.sum (fun i => (strikeStep (playing i) (s.collision i) (s.arcs i) 0).2)

/-- Iterated ticks with frame delta `0`, one oracle per frame. -/
def tickZeros (s : PolyState) (ps : List (Fin ARC_COUNT → Bool)) : PolyState :=
  ps.foldl (fun t p => tick t p 0) s

/-- Engine states reachable from `Polyrhythm::new()` by frames with arbitrary
non-negative deltas and arbitrary audio-voice statuses. -/
inductive Reach : PolyState → Prop where
  | init : Reach initState
  | step : ∀ {s : PolyState} (playing : Fin ARC_COUNT → Bool) (dt : ℕ),
      Reach s → Reach (tick s playing dt)

lemma pi32_pos : (0 : ℚ) < pi32 := by norm_num [pi32]

lemma floorFrac_le_one : floorFrac ≤ 1 := by norm_num [floorFrac]

lemma asU8_le (x : ℚ) : asU8 x ≤ 255 := by
  have h : (min 255 ⌊x⌋) ≤ (255 : ℤ) := min_le_left _ _
  simp only [asU8]
  exact le_trans (Int.toNat_le_toNat h) (by norm_num)

lemma le_asU8 {x : ℚ} (h : (50 : ℤ) ≤ ⌊x⌋) : 50 ≤ asU8 x := by
  have hmin : (50 : ℤ) ≤ min 255 ⌊x⌋ := le_min (by norm_num) h
  have htn := Int.toNat_le_toNat hmin
  simpa [asU8] using htn

lemma lo_le_clampQ (x lo hi : ℚ) : lo ≤ clampQ x lo hi := le_max_left _ _

lemma clampQ_le {lo hi : ℚ} (x : ℚ) (h : lo ≤ hi) : clampQ x lo hi ≤ hi :=
  max_le h (min_le_right _ _)

/-- C1: for every time since the pulse start, the brightness computed by the
glow/fade logic of `Arc::draw` lies in the inclusive range `[50, 255]`. -/
theorem brightness_in_range : ∀ dus : ℕ, 50 ≤ brightnessUs dus ∧ brightnessUs dus ≤ 255 := by
  intro dus
  rw [brightnessUs]
  split
  · constructor
    · exact le_min (by norm_num) (le_max_left _ _)
    · exact min_le_left _ _
  · constructor
    · apply le_asU8
      have hc : floorFrac ≤ clampQ (((dus / 1000 : ℕ) : ℚ) / 500) floorFrac 1 :=
        lo_le_clampQ _ _ _
      have hmul : 255 * floorFrac ≤ 255 * clampQ (((dus / 1000 : ℕ) : ℚ) / 500) floorFrac 1 :=
        mul_le_mul_of_nonneg_left hc (by norm_num)
      have h50 : (50 : ℚ) ≤ 255 * floorFrac := by norm_num [floorFrac]
      have := le_trans h50 hmul
      exact Int.le_floor.mpr (by exact_mod_cast this)
    · exact asU8_le _

lemma arcDraw_elapsed (a : ArcState) (dt : ℕ) :
    (arcDraw a dt).elapsed_time = a.elapsed_time + dt := by
  cases h : a.glow_start_time <;> simp [arcDraw, h]

lemma arcDraw_glow (a : ArcState) (dt : ℕ) :
    (arcDraw a dt).glow_start_time = a.glow_start_time := by
  cases h : a.glow_start_time <;> simp [arcDraw, h]

lemma arcDraw_outline_none {a : ArcState} (h : a.glow_start_time = none) (dt : ℕ) :
    (arcDraw a dt).outline = a.outline := by
  simp [arcDraw, h]

lemma arcDraw_outline_some {a : ArcState} {g : ℕ} (h : a.glow_start_time = some g) (dt : ℕ) :
    (arcDraw a dt).outline = brightnessUs (a.elapsed_time + dt - g) := by
  simp [arcDraw, h]

lemma strikeStep_fst (p c : Bool) (a : ArcState) (n : ℕ) :
    (strikeStep p c a n).1 = if c then glow_start a else a := by
  cases c <;> simp [strikeStep]

lemma glow_start_elapsed (a : ArcState) : (glow_start a).elapsed_time = a.elapsed_time := rfl

lemma glow_start_glow (a : ArcState) : (glow_start a).glow_start_time = some a.elapsed_time := rfl

lemma rmod_nonneg (x : ℚ) {y : ℚ} (hy : 0 < y) : 0 ≤ rmod x y := by
  rw [rmod, sub_nonneg]
  have h := Int.floor_le (x / y)
  have h2 := mul_le_mul_of_nonneg_left h hy.le
  rwa [mul_comm y (x / y), div_mul_cancel₀ x hy.ne'] at h2

lemma rmod_lt (x : ℚ) {y : ℚ} (hy : 0 < y) : rmod x y < y := by
  rw [rmod, sub_lt_iff_lt_add]
  have h := Int.lt_floor_add_one (x / y)
  have h2 := mul_lt_mul_of_pos_left h hy
  rw [mul_comm y (x / y), div_mul_cancel₀ x hy.ne'] at h2
  ring_nf at h2 ⊢
  linarith

lemma rmod_add_left (x : ℚ) {y : ℚ} (hy : y ≠ 0) : rmod (y + x) y = rmod x y := by
  rw [rmod, rmod, add_div, div_self hy, add_comm (1 : ℚ) (x / y), Int.floor_add_one]
  push_cast
  ring

lemma floor_255_floorFrac : ⌊(255 : ℚ) * floorFrac⌋ = 50 := by
  rw [Int.floor_eq_iff]
  norm_num [floorFrac]

lemma brightness_low {dus : ℕ} (h : dus / 1000 ≤ 98) : brightnessUs dus = 50 := by
  have hms : ((dus / 1000 : ℕ) : ℚ) ≤ 98 := by exact_mod_cast h
  have h196 : ((dus / 1000 : ℕ) : ℚ) / 500 ≤ floorFrac := by rw [floorFrac]; linarith
  have hcl : clampQ (((dus / 1000 : ℕ) : ℚ) / 500) floorFrac 1 = floorFrac := by
    rw [clampQ, min_eq_left (le_trans h196 floorFrac_le_one), max_eq_left h196]
  rw [brightnessUs, if_neg (by omega), hcl, asU8, floor_255_floorFrac]
  decide

lemma brightness_high {dus : ℕ} (h : 1000000 ≤ dus) : brightnessUs dus = 50 := by
  have hms : (1000 : ℚ) ≤ ((dus / 1000 : ℕ) : ℚ) := by
    exact_mod_cast (by omega : 1000 ≤ dus / 1000)
  have h1 : (1 : ℚ) ≤ (((dus / 1000 : ℕ) : ℚ) - 500) / 500 := by linarith
  have hcl : clampQ ((((dus / 1000 : ℕ) : ℚ) - 500) / 500) floorFrac 1 = 1 := by
    rw [clampQ, min_eq_right h1, max_eq_right floorFrac_le_one]
  rw [brightnessUs, if_pos (by omega), hcl]
  norm_num [asU8]

lemma brightness_zero : brightnessUs 0 = 50 := brightness_low (by norm_num)

lemma brightness_quarter : brightnessUs 250000 = 127 := by
  have hc : ((250000 / 1000 : ℕ) : ℚ) = 250 := by norm_num
  rw [brightnessUs, if_neg (by norm_num), hc, clampQ,
    min_eq_left (by norm_num : (250 : ℚ) / 500 ≤ 1),
    max_eq_right (by norm_num [floorFrac] : floorFrac ≤ (250 : ℚ) / 500), asU8,
    show ⌊(255 : ℚ) * (250 / 500)⌋ = 127 by rw [Int.floor_eq_iff]; norm_num]
  decide

lemma brightness_peak : brightnessUs 500000 = 255 := by
  have hc : ((500000 / 1000 : ℕ) : ℚ) = 500 := by norm_num
  rw [brightnessUs, if_neg (by norm_num), hc, clampQ,
    min_eq_right (by norm_num : (1 : ℚ) ≤ 500 / 500),
    max_eq_right floorFrac_le_one, asU8,
    show ⌊(255 : ℚ) * 1⌋ = 255 by rw [Int.floor_eq_iff]; norm_num]
  decide

lemma brightness_threequarter : brightnessUs 750000 = 127 := by
  have hc : ((750000 / 1000 : ℕ) : ℚ) = 750 := by norm_num
  rw [brightnessUs, if_pos (by norm_num), hc, clampQ,
    min_eq_left (by norm_num : ((750 : ℚ) - 500) / 500 ≤ 1),
    max_eq_right (by norm_num [floorFrac] : floorFrac ≤ ((750 : ℚ) - 500) / 500), asU8,
    show ⌊(255 : ℚ) * (1 - (750 - 500) / 500)⌋ = 127 by rw [Int.floor_eq_iff]; norm_num]
  decide

/-- C2 counterexample: with `GLOW_DURATION = 500 ms`, a quarter of a second
after a strike the computed brightness is exactly `127`, not approximately
`152`, and likewise at `750 ms`; the code scales the clamped fraction by
`255` directly instead of interpolating between the floor `50` and `255`. -/
theorem brightness_schedule_cex :
    brightnessUs 250000 = 127 ∧ brightnessUs 750000 = 127 ∧
    brightnessUs 250000 ≠ 152 ∧ brightnessUs 750000 ≠ 152 := by
  refine ⟨brightness_quarter, brightness_threequarter, ?_, ?_⟩ <;>
    simp [brightness_quarter, brightness_threequarter]

/-- C2 amended: with `GLOW_DURATION = 500 ms`, after a single `on_strike`
(`Arc::glow_start`) at time `t0`, drawing the arc at `t0 + d` shows the
brightness `brightnessUs d`, and the schedule satisfies `brightness(t0) = 50`,
`brightness(t0+250ms) = 127`, `brightness(t0+500ms) = 255`,
`brightness(t0+750ms) = 127`, and `brightness(t) = 50` for all
`t ≥ t0 + 1000ms`. -/
theorem brightness_schedule :
    (∀ (a : ArcState) (d : ℕ), (arcDraw (glow_start a) d).outline = brightnessUs d) ∧
    brightnessUs 0 = 50 ∧ brightnessUs 250000 = 127 ∧ brightnessUs 500000 = 255 ∧
    brightnessUs 750000 = 127 ∧ ∀ dus : ℕ, 1000000 ≤ dus → brightnessUs dus = 50 := by
  refine ⟨?_, brightness_zero, brightness_quarter, brightness_peak,
    brightness_threequarter, fun dus h => brightness_high h⟩
  intro a d
  rw [arcDraw_outline_some (glow_start_glow a), glow_start_elapsed, Nat.add_sub_cancel_left]

/-- Witness for the amended C2 schedule at a concrete post-fade time. -/
theorem brightness_schedule_witness : brightnessUs 1200000 = 50 :=
  brightness_schedule.2.2.2.2.2 1200000 (by norm_num)

lemma speed_lb {i : ℕ} (hi : i < 21) : pi32 / 15 ≤ speed i := by
  have h30 : (30 : ℚ) ≤ ((50 - i : ℕ) : ℚ) := by exact_mod_cast (by omega : 30 ≤ 50 - i)
  rw [speed, div_le_div_iff₀ (by norm_num) (by norm_num)]
  nlinarith [pi32_pos]

lemma speed_ub (i : ℕ) : speed i ≤ pi32 / 9 := by
  have h50 : ((50 - i : ℕ) : ℚ) ≤ 50 := by exact_mod_cast (Nat.sub_le 50 i)
  rw [speed, div_le_div_iff₀ (by norm_num) (by norm_num)]
  nlinarith [pi32_pos]

lemma speed_pos {i : ℕ} (hi : i < 21) : 0 < speed i :=
  lt_of_lt_of_le (by norm_num [pi32]) (speed_lb hi)

/-- C5: the angular speed derived for arc `i` is strictly greater than the
angular speed derived for arc `j` whenever `i < j < ARC_COUNT`: speed
strictly decreases with arc index. -/
theorem speed_strict_anti : ∀ i j : ℕ, i < j → j < ARC_COUNT → speed j < speed i := by
  intro i j hij hj
  have hj21 : j < 21 := hj
  have hc : ((50 - j : ℕ) : ℚ) < ((50 - i : ℕ) : ℚ) := by
    exact_mod_cast (by omega : 50 - j < 50 - i)
  rw [speed, speed, div_lt_div_iff₀ (by norm_num) (by norm_num)]
  nlinarith [pi32_pos]

/-- Witness for C5 at the concrete indices `2 < 3 < ARC_COUNT`. -/
theorem speed_strict_anti_witness : speed 3 < speed 2 :=
  speed_strict_anti 2 3 (by norm_num) (by norm_num [ARC_COUNT])

/-- C6: for every arc index and every elapsed time, the reflected angle
(`adjusted_distance`, obtained by folding the raw phase into `[0, 2π)` and
reflecting the lower half) lies within the closed band `[π, 2π]`. -/
theorem angle_in_band : ∀ i eus : ℕ, pi32 ≤ ballAngle i eus ∧ ballAngle i eus ≤ 2 * pi32 := by
  intro i eus
  have h2pi : (0 : ℚ) < 2 * pi32 := by norm_num [pi32]
  have h0 : 0 ≤ modDistance i eus := rmod_nonneg (distance i eus) h2pi
  have hlt : modDistance i eus < 2 * pi32 := rmod_lt (distance i eus) h2pi
  rw [ballAngle]
  split_ifs with h
  · exact ⟨h, hlt.le⟩
  · push_neg at h
    constructor <;> linarith

/-- C4: after any frame, the collision flag of arc `i` is set exactly when
the raw unreflected phase at the freshly advanced clock, taken modulo `π`,
falls in the half-open window `[0, 0.005)`. -/
theorem strike_iff_window :
    ∀ (s : PolyState) (playing : Fin ARC_COUNT → Bool) (dt : ℕ) (i : Fin ARC_COUNT),
      (tick s playing dt).collision i = true ↔
        (0 ≤ rmod (distance i.val (s.elapsed_time + dt)) pi32 ∧
          rmod (distance i.val (s.elapsed_time + dt)) pi32 < strikeEps) := by
  intro s p dt i
  simp [tick, strikeB]

/-- C7: in the per-arc strike-consumption step of `Polyrhythm::draw`, a set
collision flag always restarts the glow pulse; the collision counter grows by
exactly `1` when the arc's audio voice is idle and is unchanged when the
voice is still playing; and the step never changes the counter by any other
amount. -/
theorem strike_step_effect :
    ∀ (playing : Bool) (a : ArcState) (n : ℕ),
      (strikeStep playing true a n).1 = glow_start a ∧
      (strikeStep false true a n).2 = n + 1 ∧
      (strikeStep true true a n).2 = n ∧
      (∀ c : Bool, (strikeStep playing c a n).2 = n ∨ (strikeStep playing c a n).2 = n + 1) := by
  intro p a n
  refine ⟨by simp [strikeStep], by simp [strikeStep], by simp [strikeStep], ?_⟩
  intro c
  cases c <;> cases p <;> simp [strikeStep]

/-- C8: `Arc::glow_start` unconditionally overwrites the stored pulse start
with the arc's current clock, so an arc struck earlier (state `a`) and an arc
never struck (state `b`) at the same clock value behave identically after a
new strike: all subsequent drawn brightness values agree — no blending,
stacking, or queueing of the first pulse. -/
theorem glow_restart_overwrites :
    ∀ a b : ArcState, a.elapsed_time = b.elapsed_time →
      (glow_start a).glow_start_time = some a.elapsed_time ∧
      ∀ (dt : ℕ) (dts : List ℕ),
        arcRun (glow_start a) (dt :: dts) = arcRun (glow_start b) (dt :: dts) := by
  intro a b he
  refine ⟨rfl, ?_⟩
  intro dt dts
  have h1 : arcDraw (glow_start a) dt = arcDraw (glow_start b) dt := by
    simp [glow_start, arcDraw, he]
  simp only [arcRun, List.foldl_cons]
  rw [h1]

/-- Witness for C8: a mid-pulse arc and a never-struck arc at the same clock
value, re-struck and drawn a quarter second later. -/
theorem glow_restart_overwrites_witness :
    arcRun (glow_start { glow_start_time := some 5, outline := 200, elapsed_time := 300000 })
        (250000 :: []) =
      arcRun (glow_start { glow_start_time := none, outline := 50, elapsed_time := 300000 })
        (250000 :: []) :=
  (glow_restart_overwrites _ _ rfl).2 250000 []

lemma strike_at_nine : strikeB 0 9000000 = true := by
  have hd : distance 0 9000000 = 2 * pi32 := by
    rw [distance, speed, asSeconds, pi32]
    norm_num
  have hr : rmod (2 * pi32) pi32 = 0 := by
    rw [rmod, mul_div_assoc, div_self pi32_pos.ne', mul_one,
      show ⌊(2 : ℚ)⌋ = 2 by norm_num]
    push_cast
    ring
  rw [strikeB, hd, hr]
  norm_num [strikeEps]

/-- C3 counterexample: from the initial state, one frame of `8.9 s` puts the
engine clock at `9 s`, where arc `0` strikes; its collision flag is raised by
the detection loop of that frame and is still set when the frame ends — the
flag persists into the start of the next frame's tick, contradicting the
claim that it is consumed and cleared within the same frame. -/
theorem collision_flag_persists_cex :
    (tick initState (fun _ => false) 8900000).collision ⟨0, by norm_num [ARC_COUNT]⟩ = true := by
  have h : (100000 : ℕ) + 8900000 = 9000000 := by norm_num
  simp only [tick, initState, h]
  exact strike_at_nine

/-- C3 amended: a collision flag raised by strike detection in frame `N`
persists across the frame boundary and is consumed and cleared at the start
of frame `N+1`; it never survives the consumption phase: the flags after any
tick do not depend on the incoming flags (nor on the audio statuses), only on
the advanced clock. -/
theorem collision_flag_consumed :
    ∀ (s₁ s₂ : PolyState) (p₁ p₂ : Fin ARC_COUNT → Bool) (dt : ℕ),
      s₁.elapsed_time = s₂.elapsed_time →
      ∀ i : Fin ARC_COUNT, (tick s₁ p₁ dt).collision i = (tick s₂ p₂ dt).collision i := by
  intro s₁ s₂ p₁ p₂ dt h i
  simp [tick, h]

/-- Witness for the amended C3: all-raised flags and all-lowered flags lead
to the same outgoing flag on arc `0`. -/
theorem collision_flag_consumed_witness :
    (tick initState (fun _ => false) 0).collision ⟨0, by norm_num [ARC_COUNT]⟩ =
      (tick { initState with collision := fun _ => true } (fun _ => true) 0).collision
        ⟨0, by norm_num [ARC_COUNT]⟩ :=
  collision_flag_consumed initState { initState with collision := fun _ => true }
    (fun _ => false) (fun _ => true) 0 rfl ⟨0, by norm_num [ARC_COUNT]⟩

lemma tick_arcs (s : PolyState) (p : Fin ARC_COUNT → Bool) (dt : ℕ) (i : Fin ARC_COUNT) :
    (tick s p dt).arcs i =
      arcDraw (if s.collision i = true then glow_start (s.arcs i) else s.arcs i) dt := by
  simp [tick, strikeStep_fst]

lemma tick_collision (s : PolyState) (p : Fin ARC_COUNT → Bool) (dt : ℕ) (i : Fin ARC_COUNT) :
    (tick s p dt).collision i = strikeB i.val (s.elapsed_time + dt) := rfl

lemma tick_elapsed (s : PolyState) (p : Fin ARC_COUNT → Bool) (dt : ℕ) :
    (tick s p dt).elapsed_time = s.elapsed_time + dt := rfl

/-- Two phase values both inside the strike window are either within one
window width of each other or at least a whole half-turn apart. -/
lemma window_gap {u v : ℚ} (huv : u ≤ v)
    (hu : rmod u pi32 < strikeEps) (hv : rmod v pi32 < strikeEps) :
    v - u < strikeEps ∨ pi32 - strikeEps < v - u := by
  have hpi := pi32_pos
  have hru0 := rmod_nonneg u hpi
  have hrv0 := rmod_nonneg v hpi
  have hfl : ⌊u / pi32⌋ ≤ ⌊v / pi32⌋ :=
    Int.floor_mono (by rw [div_le_div_iff₀ hpi hpi]; nlinarith)
  have hkey : v - u =
      pi32 * ((⌊v / pi32⌋ : ℚ) - ⌊u / pi32⌋) + (rmod v pi32 - rmod u pi32) := by
    rw [rmod, rmod]; ring
  rcases eq_or_lt_of_le hfl with hfe | hflt
  · left
    have h0 : pi32 * ((⌊v / pi32⌋ : ℚ) - ⌊u / pi32⌋) = 0 := by rw [← hfe]; ring
    rw [hkey, h0]
    linarith
  · right
    have hfge : (⌊u / pi32⌋ : ℚ) + 1 ≤ (⌊v / pi32⌋ : ℚ) := by exact_mod_cast hflt
    have hmul : pi32 * 1 ≤ pi32 * ((⌊v / pi32⌋ : ℚ) - ⌊u / pi32⌋) :=
      mul_le_mul_of_nonneg_left (by linarith) hpi.le
    rw [hkey]
    linarith

/-- If arc `i` passes the strike test at two engine clock values `x ≤ y`,
then those values are either less than `24 ms` or more than a second apart;
in both regimes the glow/fade computation yields the floor brightness `50`. -/
lemma strike_gap {i x y : ℕ} (hi : i < 21) (hxy : x ≤ y)
    (hx : strikeB i x = true) (hy : strikeB i y = true) :
    brightnessUs (y - x) = 50 := by
  have hpi := pi32_pos
  rw [strikeB, Bool.and_eq_true, decide_eq_true_eq, decide_eq_true_eq] at hx hy
  have hxe : rmod (speed i * asSeconds x) pi32 < strikeEps := by
    have h := hx.2; rwa [distance, rmod_add_left _ hpi.ne'] at h
  have hye : rmod (speed i * asSeconds y) pi32 < strikeEps := by
    have h := hy.2; rwa [distance, rmod_add_left _ hpi.ne'] at h
  have hcast : ((x : ℕ) : ℚ) ≤ ((y : ℕ) : ℚ) := by exact_mod_cast hxy
  have huv : speed i * asSeconds x ≤ speed i * asSeconds y := by
    apply mul_le_mul_of_nonneg_left _ (speed_pos hi).le
    rw [asSeconds, asSeconds]
    linarith
  have hvu : speed i * asSeconds y - speed i * asSeconds x =
      speed i * ((((y : ℕ) : ℚ) - ((x : ℕ) : ℚ)) / 1000000) := by
    rw [asSeconds, asSeconds]; ring
  have hD0 : (0 : ℚ) ≤ (((y : ℕ) : ℚ) - ((x : ℕ) : ℚ)) / 1000000 :=
    div_nonneg (by linarith) (by norm_num)
  rcases window_gap huv hxe hye with hsm | hbg
  · have h1 : pi32 / 15 * ((((y : ℕ) : ℚ) - ((x : ℕ) : ℚ)) / 1000000) < strikeEps := by
      calc pi32 / 15 * ((((y : ℕ) : ℚ) - ((x : ℕ) : ℚ)) / 1000000)
          ≤ speed i * ((((y : ℕ) : ℚ) - ((x : ℕ) : ℚ)) / 1000000) :=
            mul_le_mul_of_nonneg_right (speed_lb hi) hD0
        _ = speed i * asSeconds y - speed i * asSeconds x := hvu.symm
        _ < strikeEps := hsm
    rw [div_mul_div_comm, div_lt_iff₀ (by norm_num)] at h1
    have key1 : strikeEps * (15 * 1000000) < 23874 * pi32 := by
      norm_num [strikeEps, pi32]
    have h2 : ((y : ℕ) : ℚ) - ((x : ℕ) : ℚ) < 23874 := by
      have h3 := lt_trans h1 key1
      rw [mul_comm 23874 pi32] at h3
      exact (mul_lt_mul_left hpi).mp h3
    have h4 : ((y - x : ℕ) : ℚ) < 23874 := by
      rw [Nat.cast_sub hxy]; linarith
    have h5 : (y - x : ℕ) < 23874 := by exact_mod_cast h4
    exact brightness_low (by omega)
  · have h1 : pi32 - strikeEps < pi32 / 9 * ((((y : ℕ) : ℚ) - ((x : ℕ) : ℚ)) / 1000000) := by
      calc pi32 - strikeEps
          < speed i * asSeconds y - speed i * asSeconds x := hbg
        _ = speed i * ((((y : ℕ) : ℚ) - ((x : ℕ) : ℚ)) / 1000000) := hvu
        _ ≤ pi32 / 9 * ((((y : ℕ) : ℚ) - ((x : ℕ) : ℚ)) / 1000000) :=
            mul_le_mul_of_nonneg_right (speed_ub i) hD0
    rw [div_mul_div_comm, lt_div_iff₀ (by norm_num)] at h1
    have key2 : 1000000 * pi32 ≤ (pi32 - strikeEps) * (9 * 1000000) := by
      norm_num [strikeEps, pi32]
    have h2 : (1000000 : ℚ) < ((y : ℕ) : ℚ) - ((x : ℕ) : ℚ) := by
      have h3 := lt_of_le_of_lt key2 h1
      rw [mul_comm 1000000 pi32] at h3
      exact (mul_lt_mul_left hpi).mp h3
    have h4 : (1000000 : ℚ) < ((y - x : ℕ) : ℚ) := by
      rw [Nat.cast_sub hxy]; linarith
    have h5 : 1000000 < (y - x : ℕ) := by exact_mod_cast h4
    exact brightness_high (by omega)

/-- The inductive invariant of reachable engine states: each arc clock lags
the engine clock by exactly `100 ms`; a raised flag certifies a strike at the
current clock; a recorded pulse start certifies a strike at its (engine
clock) moment; an arc never struck, or one whose flag is up, shows the floor
outline `50`; and the outline always equals the glow/fade function of the
time since the recorded pulse start. -/
structure EngineInv (s : PolyState) : Prop where
  clock : ∀ i : Fin ARC_COUNT, (s.arcs i).elapsed_time + 100000 = s.elapsed_time
  flagStrike : ∀ i : Fin ARC_COUNT, s.collision i = true → strikeB i.val s.elapsed_time = true
  glowStrike : ∀ (i : Fin ARC_COUNT) (g : ℕ), (s.arcs i).glow_start_time = some g →
    strikeB i.val (g + 100000) = true ∧ g + 100000 ≤ s.elapsed_time
  glowNone : ∀ i : Fin ARC_COUNT, (s.arcs i).glow_start_time = none → (s.arcs i).outline = 50
  flagOutline : ∀ i : Fin ARC_COUNT, s.collision i = true → (s.arcs i).outline = 50
  glowOutline : ∀ (i : Fin ARC_COUNT) (g : ℕ), (s.arcs i).glow_start_time = some g →
    (s.arcs i).outline = brightnessUs ((s.arcs i).elapsed_time - g)

lemma inv_init : EngineInv initState := by
  refine ⟨?_, ?_, ?_, ?_, ?_, ?_⟩ <;> intro i <;> simp [initState]

lemma inv_tick {s : PolyState} (h : EngineInv s) (p : Fin ARC_COUNT → Bool) (dt : ℕ) :
    EngineInv (tick s p dt) := by
  obtain ⟨h1, h2, h3, h4, h5, h6⟩ := h
  refine ⟨?_, ?_, ?_, ?_, ?_, ?_⟩
  · intro i
    rw [tick_arcs, tick_elapsed, arcDraw_elapsed]
    by_cases hc : s.collision i = true
    · rw [if_pos hc, glow_start_elapsed]
      have := h1 i; omega
    · rw [if_neg hc]
      have := h1 i; omega
  · intro i hci
    rw [tick_collision] at hci
    rw [tick_elapsed]
    exact hci
  · intro i g hg
    rw [tick_arcs, arcDraw_glow] at hg
    rw [tick_elapsed]
    by_cases hc : s.collision i = true
    · rw [if_pos hc, glow_start_glow] at hg
      have hge := Option.some.inj hg
      subst hge
      refine ⟨?_, ?_⟩
      · rw [h1 i]
        exact h2 i hc
      · have := h1 i; omega
    · rw [if_neg hc] at hg
      obtain ⟨hgs, hgl⟩ := h3 i g hg
      exact ⟨hgs, le_trans hgl (Nat.le_add_right _ _)⟩
  · intro i hg
    rw [tick_arcs, arcDraw_glow] at hg
    rw [tick_arcs]
    by_cases hc : s.collision i = true
    · rw [if_pos hc, glow_start_glow] at hg
      exact absurd hg (by simp)
    · rw [if_neg hc] at hg ⊢
      rw [arcDraw_outline_none hg]
      exact h4 i hg
  · intro i hci
    rw [tick_collision] at hci
    rw [tick_arcs]
    by_cases hc : s.collision i = true
    · rw [if_pos hc,
        arcDraw_outline_some (glow_start_glow _), glow_start_elapsed, Nat.add_sub_cancel_left]
      have hgap := strike_gap i.isLt (Nat.le_add_right s.elapsed_time dt) (h2 i hc) hci
      rwa [Nat.add_sub_cancel_left] at hgap
    · rw [if_neg hc]
      cases hg : (s.arcs i).glow_start_time with
      | none =>
        rw [arcDraw_outline_none hg]
        exact h4 i hg
      | some g =>
        rw [arcDraw_outline_some hg]
        obtain ⟨hgs, hgl⟩ := h3 i g hg
        have hel := h1 i
        have heq : (s.arcs i).elapsed_time + dt - g = (s.elapsed_time + dt) - (g + 100000) := by
          omega
        rw [heq]
        exact strike_gap i.isLt (by omega) hgs hci
  · intro i g hg
    rw [tick_arcs] at hg ⊢
    by_cases hc : s.collision i = true
    · rw [if_pos hc] at hg ⊢
      rw [arcDraw_glow, glow_start_glow] at hg
      have hge := Option.some.inj hg
      subst hge
      rw [arcDraw_outline_some (glow_start_glow _), arcDraw_elapsed, glow_start_elapsed]
    · rw [if_neg hc] at hg ⊢
      rw [arcDraw_glow] at hg
      rw [arcDraw_outline_some hg, arcDraw_elapsed]

lemma reach_inv {s : PolyState} (h : Reach s) : EngineInv s := by
  induction h with
  | init => exact inv_init
  | step p dt hs ih => exact inv_tick ih p dt

/-- A zero-delta frame leaves every outline brightness unchanged, in any
state satisfying the invariant. -/
lemma tick_zero_outline {s : PolyState} (h : EngineInv s) (p : Fin ARC_COUNT → Bool) :
    ∀ i : Fin ARC_COUNT, ((tick s p 0).arcs i).outline = (s.arcs i).outline := by
  obtain ⟨h1, h2, h3, h4, h5, h6⟩ := h
  intro i
  rw [tick_arcs]
  by_cases hc : s.collision i = true
  · rw [if_pos hc, arcDraw_outline_some (glow_start_glow _), glow_start_elapsed,
      Nat.add_zero, Nat.sub_self, brightness_zero]
    exact (h5 i hc).symm
  · rw [if_neg hc]
    cases hg : (s.arcs i).glow_start_time with
    | none => exact arcDraw_outline_none hg 0
    | some g =>
      rw [arcDraw_outline_some hg, Nat.add_zero]
      exact (h6 i g hg).symm

/-- C9: from any reachable engine state, any number of frames with
`delta_time = 0` (under arbitrary audio statuses) leave the simulation clock,
every ball angle — and hence every ball position, which is the fixed
per-arc radius placed at that angle around the fixed centre — and every arc
outline brightness unchanged. -/
theorem tick_zero_idempotent :
    ∀ s : PolyState, Reach s → ∀ ps : List (Fin ARC_COUNT → Bool),
      (tickZeros s ps).elapsed_time = s.elapsed_time ∧
      (∀ i : ℕ, ballAngle i (tickZeros s ps).elapsed_time = ballAngle i s.elapsed_time) ∧
      (∀ i : Fin ARC_COUNT, ((tickZeros s ps).arcs i).outline = (s.arcs i).outline) := by
  intro s hs ps
  revert s
  induction ps with
  | nil => intro s hs; exact ⟨rfl, fun _ => rfl, fun _ => rfl⟩
  | cons p ps ih =>
    intro s hs
    have hinv := reach_inv hs
    have hr : Reach (tick s p 0) := Reach.step p 0 hs
    have hel : (tick s p 0).elapsed_time = s.elapsed_time := by
      rw [tick_elapsed, Nat.add_zero]
    obtain ⟨he, ha, ho⟩ := ih (tick s p 0) hr
    have hfold : tickZeros s (p :: ps) = tickZeros (tick s p 0) ps := rfl
    refine ⟨?_, ?_, ?_⟩
    · rw [hfold, he, hel]
    · intro j
      rw [hfold, he, hel]
    · intro j
      rw [hfold, ho j]
      exact tick_zero_outline hinv p j

/-- Witness for C9 at the initial state with one zero-delta frame. -/
theorem tick_zero_idempotent_witness :
    ((tickZeros initState ((fun _ => false) :: [])).arcs ⟨0, by norm_num [ARC_COUNT]⟩).outline =
      (initState.arcs ⟨0, by norm_num [ARC_COUNT]⟩).outline :=
  (tick_zero_idempotent initState Reach.init ((fun _ => false) :: [])).2.2
    ⟨0, by norm_num [ARC_COUNT]⟩

/-- C10: the engine clock starts at `100 ms` while every arc-local clock
starts at zero; every reachable state keeps each arc clock exactly `100 ms`
behind the engine clock (both advance by the same frame delta); and
`Arc::glow_start` records the pulse start on the arc-local clock. -/
theorem arc_clock_lag :
    initState.elapsed_time = 100000 ∧
    (∀ i : Fin ARC_COUNT, (initState.arcs i).elapsed_time = 0) ∧
    (∀ s : PolyState, Reach s →
      ∀ i : Fin ARC_COUNT, (s.arcs i).elapsed_time + 100000 = s.elapsed_time) ∧
    (∀ a : ArcState, (glow_start a).glow_start_time = some a.elapsed_time) := by
  refine ⟨rfl, fun _ => rfl, ?_, fun _ => rfl⟩
  intro s hs i
  exact (reach_inv hs).clock i

/-- Witness for C10 at the initial state. -/
theorem arc_clock_lag_witness :
    (initState.arcs ⟨0, by norm_num [ARC_COUNT]⟩).elapsed_time + 100000 =
      initState.elapsed_time :=
  arc_clock_lag.2.2.1 initState Reach.init ⟨0, by norm_num [ARC_COUNT]⟩
